import Mathlib

/-!
Verification of the nomad-autoscaler agent core against its specification.

The development shallowly embeds the two source files:

* `helper/blocking/blocking.go` — the blocking-query index helpers,
  embedded as the pure functions `IndexHasChange` and `FindMaxFound`.
* `agent.go` — the agent core.  Its effectful pieces are embedded as
  trace-producing functions over oracle environments:
  - `handlePolicy` (the evaluation pipeline) consumes an `EvalEnv` of
    plugin oracles and emits the `Event` trace of the cycle;
  - `monitorPolicy` (the per-policy monitor loop) folds over a finite
    list of tick outcomes, threading the current ticker interval;
  - `loadList` / `loadAPMPlugins` / `loadTargetPlugins` /
    `loadStrategyPlugins` / `loadPlugins` (the one-time plugin load
    pass) emit the `LoadEvent` trace of register/dispense/SetConfig
    calls, stopping at the first failure;
  - `startMonitors` / `handlePolicies` / `supervise` / `AgentRun`
    (the supervisor `Agent.Run` loop) thread the `policyMonitors` map,
    modelled as the list of keys (`monitors`) together with the subset
    of IDs whose monitor goroutine has not been cancelled (`live`).

Opaque strings of the Go code (policy IDs, plugin names, drivers,
queries, configuration maps' keys and values) are coded as natural
numbers; `time.Duration` values are coded as naturals, and the metric
value and the target count are coded as integers.  None of the claims
depends on the internal structure of these payloads.
-/

namespace Autoscaler

/-- Embedding of `IndexHasChange` from `helper/blocking/blocking.go`:
`if new <= old { return false }; return true`. -/
def IndexHasChange (new old : Nat) : Bool :=
  if new ≤ old then false else true

/-- Embedding of `FindMaxFound` from `helper/blocking/blocking.go`:
`if new <= old { return old }; return new`. -/
def FindMaxFound (new old : Nat) : Nat :=
  if new ≤ old then old else new

/-- Mirror of `policystorage.Policy.Target` as used by `agent.go`:
a target plugin name and an opaque configuration map. -/
structure PolicyTarget where
  Name : Nat
  Config : Nat
  deriving DecidableEq

/-- Mirror of `policystorage.Policy.Strategy` as used by `agent.go`. -/
structure PolicyStrategy where
  Name : Nat
  Min : Int
  Max : Int
  Config : Nat
  deriving DecidableEq

/-- Mirror of `policystorage.Policy` as used by `agent.go`.  `Interval`
is the re-evaluation period (a `time.Duration`); zero means "use the
process default". -/
structure Policy where
  ID : Nat
  Source : Nat
  Query : Nat
  Target : PolicyTarget
  Strategy : PolicyStrategy
  Interval : Nat
  deriving DecidableEq

/-- Mirror of `strategy.Action`: a desired capacity and a reason. -/
structure Action where
  Count : Int
  Reason : Nat
  deriving DecidableEq

/-- Mirror of `strategy.RunRequest` built in `Agent.handlePolicy`. -/
structure RunRequest where
  CurrentCount : Int
  MinCount : Int
  MaxCount : Int
  CurrentValue : Int
  Config : Nat
  deriving DecidableEq

/-- Mirror of `strategy.RunResult`: an ordered sequence of actions. -/
structure RunResult where
  Actions : List Action
  deriving DecidableEq

/-- Observable events of one evaluation cycle of `Agent.handlePolicy`:
the plugin-manager dispenses, the plugin calls, and the log lines the
function emits. -/
inductive Event where
  | dispenseTarget (name : Nat)
  | dispenseAPM (name : Nat)
  | dispenseStrategy (name : Nat)
  | countCall (config : Nat)
  | queryCall (q : Nat)
  | runCall (req : RunRequest)
  | scaleCall (a : Action) (config : Nat)
  | logInfoFetchingCount
  | logInfoQueryingAPM
  | logInfoCalculating
  | logInfoNothingToDo
  | logInfoScaling (a : Action)
  | logErrorTargetPlugin
  | logErrorAPMPlugin
  | logErrorStrategyPlugin
  | logErrorCount
  | logErrorQuery
  | logErrorStrategyRun
  | logErrorScale
  deriving DecidableEq

/-- Oracles standing for the three plugin managers and the behaviour of
the dispensed plugins during evaluation cycles: dispense success per
plugin name, `Count`/`Query`/`Run` results, and `Scale` success. -/
structure EvalEnv where
  targetDispense : Nat → Bool
  apmDispense : Nat → Bool
  strategyDispense : Nat → Bool
  targetCount : Nat → Except Unit Int
  apmQuery : Nat → Except Unit Int
  strategyRun : RunRequest → Except Unit RunResult
  targetScale : Action → Nat → Bool

/-- Embedding of the scaling loop at the end of `Agent.handlePolicy`:
`for _, action := range results.Actions { log; Scale; if err { log; return } }`. -/
def scaleLoop (env : EvalEnv) (cfg : Nat) : List Action → List Event
  | [] => []
  | a :: rest =>
    Event.logInfoScaling a :: Event.scaleCall a cfg ::
      (if env.targetScale a cfg then scaleLoop env cfg rest
       else [Event.logErrorScale])

/-- Embedding of `Agent.handlePolicy`: dispense the target, APM and
strategy plugins, then `Count`, then `Query`, then `Run`, then either
log "nothing to do" or run the scaling loop; every failure logs an
error and returns early. -/
def handlePolicy (env : EvalEnv) (p : Policy) : List Event :=
  Event.dispenseTarget p.Target.Name ::
    (if env.targetDispense p.Target.Name then
      Event.dispenseAPM p.Source ::
        (if env.apmDispense p.Source then
          Event.dispenseStrategy p.Strategy.Name ::
            (if env.strategyDispense p.Strategy.Name then
              Event.logInfoFetchingCount ::
                Event.countCall p.Target.Config ::
                  (match env.targetCount p.Target.Config with
                   | Except.error _ => [Event.logErrorCount]
                   | Except.ok currentCount =>
                     Event.logInfoQueryingAPM ::
                       Event.queryCall p.Query ::
                         (match env.apmQuery p.Query with
                          | Except.error _ => [Event.logErrorQuery]
                          | Except.ok value =>
                            Event.logInfoCalculating ::
                              Event.runCall
                                  ⟨currentCount, p.Strategy.Min, p.Strategy.Max,
                                   value, p.Strategy.Config⟩ ::
                                (match env.strategyRun
                                    ⟨currentCount, p.Strategy.Min, p.Strategy.Max,
                                     value, p.Strategy.Config⟩ with
                                 | Except.error _ => [Event.logErrorStrategyRun]
                                 | Except.ok results =>
                                   if results.Actions.length = 0 then
                                     [Event.logInfoNothingToDo]
                                   else scaleLoop env p.Target.Config results.Actions)))
             else [Event.logErrorStrategyPlugin])
        else [Event.logErrorAPMPlugin])
    else [Event.logErrorTargetPlugin])

/-- Marks the events that are `logger.Error` lines of `handlePolicy`. -/
def isErrorLog : Event → Bool
  | Event.logErrorTargetPlugin => true
  | Event.logErrorAPMPlugin => true
  | Event.logErrorStrategyPlugin => true
  | Event.logErrorCount => true
  | Event.logErrorQuery => true
  | Event.logErrorStrategyRun => true
  | Event.logErrorScale => true
  | _ => false

/-- Holds when error-log events occur only as the final event of a
trace: once an error is logged the function has returned. -/
def errorsOnlyLast : List Event → Bool
  | [] => true
  | [_] => true
  | e :: rest => !(isErrorLog e) && errorsOnlyLast rest

/-- The `Scale` invocations of a trace, with their arguments, in order. -/
def scaleCalls (t : List Event) : List (Action × Nat) :=
  t.filterMap fun e =>
    match e with
    | Event.scaleCall a c => some (a, c)
    | _ => none

/-- Numbers the six dispense/call stages of the pipeline in the order
the code performs them; other events are transparent. -/
def stageTag : Event → Option Nat
  | Event.dispenseTarget _ => some 0
  | Event.dispenseAPM _ => some 1
  | Event.dispenseStrategy _ => some 2
  | Event.countCall _ => some 3
  | Event.queryCall _ => some 4
  | Event.runCall _ => some 5
  | _ => none

/-- The expected event sequence of a scaling loop whose `Scale` calls
all succeed. -/
def scalePhaseEvents (cfg : Nat) : List Action → List Event
  | [] => []
  | a :: rest =>
    Event.logInfoScaling a :: Event.scaleCall a cfg :: scalePhaseEvents cfg rest

/-- The seven points of `handlePolicy` at which a failure can occur. -/
inductive Stage where
  | dispenseTargetStage
  | dispenseAPMStage
  | dispenseStrategyStage
  | countStage
  | queryStage
  | runStage
  | scaleStage
  deriving DecidableEq

/-- The error-log line `handlePolicy` emits for a failure at a stage. -/
def errorLogOf : Stage → Event
  | Stage.dispenseTargetStage => Event.logErrorTargetPlugin
  | Stage.dispenseAPMStage => Event.logErrorAPMPlugin
  | Stage.dispenseStrategyStage => Event.logErrorStrategyPlugin
  | Stage.countStage => Event.logErrorCount
  | Stage.queryStage => Event.logErrorQuery
  | Stage.runStage => Event.logErrorStrategyRun
  | Stage.scaleStage => Event.logErrorScale

/-- Default action used with `List.getD` when indexing action lists. -/
def actDefault : Action := ⟨0, 0⟩

/-- All three plugin dispenses of a cycle succeed. -/
def dispensesOk (env : EvalEnv) (p : Policy) : Prop :=
  env.targetDispense p.Target.Name = true ∧
    env.apmDispense p.Source = true ∧
      env.strategyDispense p.Strategy.Name = true

/-- The evaluation cycle fails at exactly the given stage: every oracle
consulted before that stage succeeds and the stage's oracle fails. -/
def failsAtStage (env : EvalEnv) (p : Policy) : Stage → Prop
  | Stage.dispenseTargetStage => env.targetDispense p.Target.Name = false
  | Stage.dispenseAPMStage =>
      env.targetDispense p.Target.Name = true ∧ env.apmDispense p.Source = false
  | Stage.dispenseStrategyStage =>
      env.targetDispense p.Target.Name = true ∧ env.apmDispense p.Source = true ∧
        env.strategyDispense p.Strategy.Name = false
  | Stage.countStage =>
      dispensesOk env p ∧ env.targetCount p.Target.Config = Except.error ()
  | Stage.queryStage =>
      dispensesOk env p ∧ (∃ c, env.targetCount p.Target.Config = Except.ok c) ∧
        env.apmQuery p.Query = Except.error ()
  | Stage.runStage =>
      dispensesOk env p ∧
        ∃ c v, env.targetCount p.Target.Config = Except.ok c ∧
          env.apmQuery p.Query = Except.ok v ∧
            env.strategyRun
                ⟨c, p.Strategy.Min, p.Strategy.Max, v, p.Strategy.Config⟩ =
              Except.error ()
  | Stage.scaleStage =>
      dispensesOk env p ∧
        ∃ c v res, env.targetCount p.Target.Config = Except.ok c ∧
          env.apmQuery p.Query = Except.ok v ∧
            env.strategyRun
                ⟨c, p.Strategy.Min, p.Strategy.Max, v, p.Strategy.Config⟩ =
              Except.ok res ∧
            ∃ k, k < res.Actions.length ∧
              (∀ i, i < k →
                env.targetScale (res.Actions.getD i actDefault) p.Target.Config = true) ∧
              env.targetScale (res.Actions.getD k actDefault) p.Target.Config = false

/-- Outcome of the `a.ps.Get(ID)` call at one tick of the monitor. -/
inductive TickOutcome where
  | fetchErr
  | fetched (p : Policy)
  deriving DecidableEq

/-- Observable events of one tick of `Agent.monitorPolicy`. -/
inductive MEvent where
  | logErrorFetch
  | evalCycle (p : Policy) (trace : List Event)
  deriving DecidableEq

/-- Embedding of the `<-ticker.C` branch of `Agent.monitorPolicy`: on a
fetch error, log and continue with the old ticker; on success, replace
the ticker with one of the policy's interval (or the default when the
policy's interval is zero) and evaluate the policy.  Returns the
interval of the replacement ticker and the tick's events. -/
def monitorTick (env : EvalEnv) (defaultSleep interval : Nat) :
    TickOutcome → Nat × List MEvent
  | TickOutcome.fetchErr => (interval, [MEvent.logErrorFetch])
  | TickOutcome.fetched p =>
    (if p.Interval ≠ 0 then p.Interval else defaultSleep,
     [MEvent.evalCycle p (handlePolicy env p)])

/-- Embedding of the `Agent.monitorPolicy` loop over a finite list of
tick outcomes, threading the current ticker interval; each entry of the
result records the interval in force after that tick together with the
tick's events. -/
def monitorPolicy (env : EvalEnv) (defaultSleep : Nat) :
    Nat → List TickOutcome → List (Nat × List MEvent)
  | _, [] => []
  | interval, t :: rest =>
    let r := monitorTick env defaultSleep interval t
    r :: monitorPolicy env defaultSleep r.1 rest

/-- The ticker interval in force when tick `k` fires, given the initial
interval and the preceding tick outcomes. -/
def intervalBefore (env : EvalEnv) (ds : Nat) :
    Nat → List TickOutcome → Nat → Nat
  | i0, _, 0 => i0
  | i0, [], _ + 1 => i0
  | i0, t :: rest, k + 1 =>
    intervalBefore env ds (monitorTick env ds i0 t).1 rest k

/-- Mirror of the agent configuration entries for one plugin (the
`APM`, `Target` and `Strategy` config structs share this shape):
a name, a driver executable, and a configuration map. -/
structure PluginCfg where
  Name : Nat
  Driver : Nat
  Config : List (Nat × Nat)
  deriving DecidableEq

/-- Mirror of the Nomad connection part of the agent configuration. -/
structure NomadCfg where
  Address : Nat
  Region : Nat
  deriving DecidableEq

/-- Mirror of the agent `Config` fields referenced by `agent.go`. -/
structure Config where
  Nomad : NomadCfg
  PluginDir : Nat
  ScanInterval : Nat
  APMs : List PluginCfg
  Targets : List PluginCfg
  Strategies : List PluginCfg
  deriving DecidableEq

/-- The three plugin kinds managed by the agent. -/
inductive Kind where
  | apm
  | target
  | strategy
  deriving DecidableEq

/-- Observable calls of the plugin load pass. -/
inductive LoadEvent where
  | registerPlugin (k : Kind) (name driver : Nat)
  | dispensePlugin (k : Kind) (name : Nat)
  | setConfigPlugin (k : Kind) (name : Nat) (cfg : List (Nat × Nat))
  deriving DecidableEq

/-- Oracles for the plugin managers during the load pass:
`RegisterPlugin`, `Dispense` and `SetConfig` success per kind and name. -/
structure LoadEnv where
  registerOk : Kind → Nat → Bool
  dispenseOk : Kind → Nat → Bool
  setConfigOk : Kind → Nat → Bool

/-- Code point standing for the provider name string `"local-nomad"`. -/
def localNomad : Nat := 1

/-- Code point standing for the driver string `"nomad-apm"`. -/
def nomadAPMDriver : Nat := 2

/-- Code point standing for the driver string `"nomad"`. -/
def nomadDriver : Nat := 3

/-- Code point standing for the config key string `"address"`. -/
def addressKey : Nat := 4

/-- Code point standing for the config key string `"region"`. -/
def regionKey : Nat := 5

/-- The built-in APM entry appended by `Agent.loadAPMPlugins`:
name `"local-nomad"`, driver `"nomad-apm"`, config `{address, region}`. -/
def localNomadAPM (n : NomadCfg) : PluginCfg :=
  ⟨localNomad, nomadAPMDriver, [(addressKey, n.Address), (regionKey, n.Region)]⟩

/-- The built-in target entry appended by `Agent.loadTargetPlugins`:
name `"local-nomad"`, driver `"nomad"`, config `{address, region}`. -/
def localNomadTarget (n : NomadCfg) : PluginCfg :=
  ⟨localNomad, nomadDriver, [(addressKey, n.Address), (regionKey, n.Region)]⟩

/-- Embedding of the shared loop body of the three `load*Plugins`
functions: for each entry in order, `RegisterPlugin`, `Dispense`,
`SetConfig`; the first failing call ends the pass with an error. -/
def loadList (env : LoadEnv) (k : Kind) : List PluginCfg → List LoadEvent × Bool
  | [] => ([], true)
  | c :: rest =>
    if env.registerOk k c.Name then
      if env.dispenseOk k c.Name then
        if env.setConfigOk k c.Name then
          let r := loadList env k rest
          (LoadEvent.registerPlugin k c.Name c.Driver ::
            LoadEvent.dispensePlugin k c.Name ::
              LoadEvent.setConfigPlugin k c.Name c.Config :: r.1,
           r.2)
        else
          ([LoadEvent.registerPlugin k c.Name c.Driver,
            LoadEvent.dispensePlugin k c.Name,
            LoadEvent.setConfigPlugin k c.Name c.Config], false)
      else
        ([LoadEvent.registerPlugin k c.Name c.Driver,
          LoadEvent.dispensePlugin k c.Name], false)
    else ([LoadEvent.registerPlugin k c.Name c.Driver], false)

/-- Embedding of `Agent.loadAPMPlugins`: the built-in `local-nomad`
entry is appended to the configured list, then the list is loaded. -/
def loadAPMPlugins (env : LoadEnv) (cfg : Config) : List LoadEvent × Bool :=
  loadList env Kind.apm (cfg.APMs ++ [localNomadAPM cfg.Nomad])

/-- Embedding of `Agent.loadTargetPlugins`. -/
def loadTargetPlugins (env : LoadEnv) (cfg : Config) : List LoadEvent × Bool :=
  loadList env Kind.target (cfg.Targets ++ [localNomadTarget cfg.Nomad])

/-- Embedding of `Agent.loadStrategyPlugins`: only the configured
strategies are loaded, with no built-in entry. -/
def loadStrategyPlugins (env : LoadEnv) (cfg : Config) : List LoadEvent × Bool :=
  loadList env Kind.strategy cfg.Strategies

/-- Embedding of `Agent.loadPlugins`: APMs, then targets, then
strategies, stopping at the first failing pass. -/
def loadPlugins (env : LoadEnv) (cfg : Config) : List LoadEvent × Bool :=
  let a := loadAPMPlugins env cfg
  if a.2 then
    let t := loadTargetPlugins env cfg
    if t.2 then
      let s := loadStrategyPlugins env cfg
      (a.1 ++ t.1 ++ s.1, s.2)
    else (a.1 ++ t.1, false)
  else a

/-- The `RegisterPlugin` calls of the given kind in a load trace, as
(name, driver) pairs in call order. -/
def registersOf (k : Kind) (evs : List LoadEvent) : List (Nat × Nat) :=
  evs.filterMap fun e =>
    match e with
    | LoadEvent.registerPlugin k2 n d => if k2 = k then some (n, d) else none
    | _ => none

/-- One delivery on the supervisor's input channels: a policy set from
`policiesCn` or an error from `errCn`. -/
inductive FeedItem where
  | policies (ps : List Policy)
  | feedErr
  deriving DecidableEq

/-- State of the supervisor loop of `Agent.Run`: the keys of the
`policyMonitors` map in insertion order, and the IDs among them whose
monitor goroutine has not been cancelled. -/
structure SupState where
  monitors : List Nat
  live : List Nat
  deriving DecidableEq

/-- Embedding of the first loop of the `policies` branch of
`Agent.Run`: for each policy of the set whose ID is not yet a key of
`policyMonitors`, start a monitor goroutine and record its cancel. -/
def startMonitors : SupState → List Policy → SupState
  | st, [] => st
  | st, p :: rest =>
    if st.monitors.contains p.ID then startMonitors st rest
    else startMonitors ⟨st.monitors ++ [p.ID], st.live ++ [p.ID]⟩ rest

/-- Embedding of the whole `policies` branch of `Agent.Run`: start
monitors for new IDs, then invoke `cancel()` for every key of
`policyMonitors` that is absent from the received set.  The cancelled
entry stays in the map — the code performs no `delete`. -/
def handlePolicies (st : SupState) (ps : List Policy) : SupState :=
  let st1 := startMonitors st ps
  ⟨st1.monitors,
   st1.live.filter fun id =>
     !(st1.monitors.contains id) || ps.any fun q => q.ID == id⟩

/-- Embedding of the steady-state select loop of `Agent.Run` over a
finite feed: policy sets are reconciled, feed errors are only logged. -/
def supervise : SupState → List FeedItem → SupState
  | st, [] => st
  | st, FeedItem.policies ps :: rest => supervise (handlePolicies st ps) rest
  | st, FeedItem.feedErr :: rest => supervise st rest

/-- The two startup failures `Agent.Run` can return. -/
inductive RunError where
  | clientFailed
  | pluginLoadFailed
  deriving DecidableEq

/-- Embedding of `Agent.Run`: fail on client construction, fail on the
plugin load pass, and otherwise run the supervisor loop until the
context is done (the feed ends) and return `nil`. -/
def AgentRun (clientOk : Bool) (lenv : LoadEnv) (cfg : Config)
    (feed : List FeedItem) : Option RunError × SupState :=
  if clientOk then
    if (loadPlugins lenv cfg).2 then (none, supervise ⟨[], []⟩ feed)
    else (some RunError.pluginLoadFailed, ⟨[], []⟩)
  else (some RunError.clientFailed, ⟨[], []⟩)

/-- Concrete all-succeeding evaluation environment: `Count` returns 2,
`Query` returns 80, the strategy returns one action of count 4. -/
def env3 : EvalEnv :=
  ⟨fun _ => true, fun _ => true, fun _ => true,
   fun _ => Except.ok 2, fun _ => Except.ok 80,
   fun _ => Except.ok ⟨[⟨4, 0⟩]⟩, fun _ _ => true⟩

/-- Concrete policy used by the concrete-input theorems. -/
def p3 : Policy := ⟨1, 2, 3, ⟨4, 5⟩, ⟨6, 1, 10, 7⟩, 0⟩

/-- Concrete policy with a nonzero interval. -/
def pIv : Policy := ⟨1, 2, 3, ⟨4, 5⟩, ⟨6, 1, 10, 7⟩, 3⟩

/-- Environment whose target dispense fails. -/
def envFailT : EvalEnv :=
  ⟨fun _ => false, fun _ => true, fun _ => true,
   fun _ => Except.ok 2, fun _ => Except.ok 80,
   fun _ => Except.ok ⟨[⟨4, 0⟩]⟩, fun _ _ => true⟩

/-- Environment whose strategy returns two actions and whose `Scale`
always fails. -/
def envSF : EvalEnv :=
  ⟨fun _ => true, fun _ => true, fun _ => true,
   fun _ => Except.ok 2, fun _ => Except.ok 80,
   fun _ => Except.ok ⟨[⟨4, 0⟩, ⟨5, 0⟩]⟩, fun _ _ => false⟩

/-- Environment whose strategy returns an empty action list. -/
def envZero : EvalEnv :=
  ⟨fun _ => true, fun _ => true, fun _ => true,
   fun _ => Except.ok 2, fun _ => Except.ok 80,
   fun _ => Except.ok ⟨[]⟩, fun _ _ => true⟩

/-- Load environment in which every manager call succeeds. -/
def envAllLoad : LoadEnv := ⟨fun _ _ => true, fun _ _ => true, fun _ _ => true⟩

/-- Concrete agent configuration with one configured plugin per kind. -/
def cfgW : Config :=
  ⟨⟨6, 7⟩, 0, 0, [⟨10, 11, []⟩], [⟨12, 13, []⟩], [⟨14, 15, []⟩]⟩

/-- Concrete policy with ID 1 for the supervisor theorems. -/
def pA : Policy := ⟨1, 2, 3, ⟨4, 5⟩, ⟨6, 1, 10, 7⟩, 0⟩

/-- Event is a target-dispense. -/
def isDispenseTargetEv : Event → Bool
  | Event.dispenseTarget _ => true
  | _ => false

/-- Event is an APM dispense. -/
def isDispenseAPMEv : Event → Bool
  | Event.dispenseAPM _ => true
  | _ => false

/-- Event is a strategy dispense. -/
def isDispenseStrategyEv : Event → Bool
  | Event.dispenseStrategy _ => true
  | _ => false

/-- Event is a `Count` call. -/
def isCountCallEv : Event → Bool
  | Event.countCall _ => true
  | _ => false

/-- Event is a `Query` call. -/
def isQueryCallEv : Event → Bool
  | Event.queryCall _ => true
  | _ => false

/-- Claim C10: `FindMaxFound` returns the maximum of its arguments, and
`IndexHasChange` holds exactly when the new index is strictly greater
than the old one, equivalently exactly when `FindMaxFound` differs from
the old value. -/
theorem blocking_index_spec (new old : Nat) :
    FindMaxFound new old = max new old ∧
    (IndexHasChange new old = true ↔ new > old) ∧
    (IndexHasChange new old = true ↔ FindMaxFound new old ≠ old) := by
  unfold FindMaxFound IndexHasChange
  by_cases h : new ≤ old
  · refine ⟨?_, ?_, ?_⟩ <;> simp [h, Nat.max_eq_right h]
  · refine ⟨?_, ?_, ?_⟩ <;>
      simp [h, Nat.max_eq_left (Nat.le_of_not_le h)]
    all_goals omega

/-- Trace of a cycle whose target dispense fails. -/
theorem handlePolicy_red_targetFail (env : EvalEnv) (p : Policy)
    (h : env.targetDispense p.Target.Name = false) :
    handlePolicy env p =
      [Event.dispenseTarget p.Target.Name, Event.logErrorTargetPlugin] := by
  simp [handlePolicy, h]

/-- Trace of a cycle whose APM dispense fails. -/
theorem handlePolicy_red_apmFail (env : EvalEnv) (p : Policy)
    (hT : env.targetDispense p.Target.Name = true)
    (hA : env.apmDispense p.Source = false) :
    handlePolicy env p =
      [Event.dispenseTarget p.Target.Name, Event.dispenseAPM p.Source,
       Event.logErrorAPMPlugin] := by
  simp [handlePolicy, hT, hA]

/-- Trace of a cycle whose strategy dispense fails. -/
theorem handlePolicy_red_strategyFail (env : EvalEnv) (p : Policy)
    (hT : env.targetDispense p.Target.Name = true)
    (hA : env.apmDispense p.Source = true)
    (hS : env.strategyDispense p.Strategy.Name = false) :
    handlePolicy env p =
      [Event.dispenseTarget p.Target.Name, Event.dispenseAPM p.Source,
       Event.dispenseStrategy p.Strategy.Name, Event.logErrorStrategyPlugin] := by
  simp [handlePolicy, hT, hA, hS]

/-- Trace of a cycle whose `Count` call fails. -/
theorem handlePolicy_red_countFail (env : EvalEnv) (p : Policy)
    (hT : env.targetDispense p.Target.Name = true)
    (hA : env.apmDispense p.Source = true)
    (hS : env.strategyDispense p.Strategy.Name = true)
    (hc : env.targetCount p.Target.Config = Except.error ()) :
    handlePolicy env p =
      [Event.dispenseTarget p.Target.Name, Event.dispenseAPM p.Source,
       Event.dispenseStrategy p.Strategy.Name, Event.logInfoFetchingCount,
       Event.countCall p.Target.Config, Event.logErrorCount] := by
  simp [handlePolicy, hT, hA, hS, hc]

/-- Trace of a cycle whose `Query` call fails. -/
theorem handlePolicy_red_queryFail (env : EvalEnv) (p : Policy) (c : Int)
    (hT : env.targetDispense p.Target.Name = true)
    (hA : env.apmDispense p.Source = true)
    (hS : env.strategyDispense p.Strategy.Name = true)
    (hc : env.targetCount p.Target.Config = Except.ok c)
    (hq : env.apmQuery p.Query = Except.error ()) :
    handlePolicy env p =
      [Event.dispenseTarget p.Target.Name, Event.dispenseAPM p.Source,
       Event.dispenseStrategy p.Strategy.Name, Event.logInfoFetchingCount,
       Event.countCall p.Target.Config, Event.logInfoQueryingAPM,
       Event.queryCall p.Query, Event.logErrorQuery] := by
  simp [handlePolicy, hT, hA, hS, hc, hq]

/-- Trace of a cycle whose strategy `Run` call fails. -/
theorem handlePolicy_red_runFail (env : EvalEnv) (p : Policy) (c v : Int)
    (hT : env.targetDispense p.Target.Name = true)
    (hA : env.apmDispense p.Source = true)
    (hS : env.strategyDispense p.Strategy.Name = true)
    (hc : env.targetCount p.Target.Config = Except.ok c)
    (hq : env.apmQuery p.Query = Except.ok v)
    (hr : env.strategyRun
        ⟨c, p.Strategy.Min, p.Strategy.Max, v, p.Strategy.Config⟩ =
      Except.error ()) :
    handlePolicy env p =
      [Event.dispenseTarget p.Target.Name, Event.dispenseAPM p.Source,
       Event.dispenseStrategy p.Strategy.Name, Event.logInfoFetchingCount,
       Event.countCall p.Target.Config, Event.logInfoQueryingAPM,
       Event.queryCall p.Query, Event.logInfoCalculating,
       Event.runCall ⟨c, p.Strategy.Min, p.Strategy.Max, v, p.Strategy.Config⟩,
       Event.logErrorStrategyRun] := by
  simp [handlePolicy, hT, hA, hS, hc, hq, hr]

/-- Trace of a cycle whose strategy returns zero actions. -/
theorem handlePolicy_red_nothing (env : EvalEnv) (p : Policy) (c v : Int)
    (res : RunResult)
    (hT : env.targetDispense p.Target.Name = true)
    (hA : env.apmDispense p.Source = true)
    (hS : env.strategyDispense p.Strategy.Name = true)
    (hc : env.targetCount p.Target.Config = Except.ok c)
    (hq : env.apmQuery p.Query = Except.ok v)
    (hr : env.strategyRun
        ⟨c, p.Strategy.Min, p.Strategy.Max, v, p.Strategy.Config⟩ =
      Except.ok res)
    (hz : res.Actions = []) :
    handlePolicy env p =
      [Event.dispenseTarget p.Target.Name, Event.dispenseAPM p.Source,
       Event.dispenseStrategy p.Strategy.Name, Event.logInfoFetchingCount,
       Event.countCall p.Target.Config, Event.logInfoQueryingAPM,
       Event.queryCall p.Query, Event.logInfoCalculating,
       Event.runCall ⟨c, p.Strategy.Min, p.Strategy.Max, v, p.Strategy.Config⟩,
       Event.logInfoNothingToDo] := by
  simp [handlePolicy, hT, hA, hS, hc, hq, hr, hz]

/-- Trace of a cycle that reaches the scaling loop. -/
theorem handlePolicy_red_scalePhase (env : EvalEnv) (p : Policy) (c v : Int)
    (res : RunResult)
    (hT : env.targetDispense p.Target.Name = true)
    (hA : env.apmDispense p.Source = true)
    (hS : env.strategyDispense p.Strategy.Name = true)
    (hc : env.targetCount p.Target.Config = Except.ok c)
    (hq : env.apmQuery p.Query = Except.ok v)
    (hr : env.strategyRun
        ⟨c, p.Strategy.Min, p.Strategy.Max, v, p.Strategy.Config⟩ =
      Except.ok res)
    (hne : res.Actions.length ≠ 0) :
    handlePolicy env p =
      [Event.dispenseTarget p.Target.Name, Event.dispenseAPM p.Source,
       Event.dispenseStrategy p.Strategy.Name, Event.logInfoFetchingCount,
       Event.countCall p.Target.Config, Event.logInfoQueryingAPM,
       Event.queryCall p.Query, Event.logInfoCalculating,
       Event.runCall ⟨c, p.Strategy.Min, p.Strategy.Max, v, p.Strategy.Config⟩] ++
        scaleLoop env p.Target.Config res.Actions := by
  simp [handlePolicy, hT, hA, hS, hc, hq, hr, hne]

/-- A scaling loop whose `Scale` calls all succeed emits exactly the
log/call pair of every action in order. -/
theorem scaleLoop_ok (env : EvalEnv) (cfg : Nat) :
    ∀ acts : List Action,
      (∀ a ∈ acts, env.targetScale a cfg = true) →
      scaleLoop env cfg acts = scalePhaseEvents cfg acts := by
  intro acts
  induction acts with
  | nil => intro _; rfl
  | cons a rest ih =>
    intro h
    have ha : env.targetScale a cfg = true := h a (by simp)
    simp [scaleLoop, scalePhaseEvents, ha,
      ih fun b hb => h b (by simp [hb])]

/-- A scaling loop whose `Scale` call fails at position `k` after `k`
successes emits the pairs of the first `k + 1` actions and then the
scale error log, and nothing else. -/
theorem scaleLoop_fail (env : EvalEnv) (cfg : Nat) :
    ∀ (acts : List Action) (k : Nat),
      k < acts.length →
      (∀ i, i < k → env.targetScale (acts.getD i actDefault) cfg = true) →
      env.targetScale (acts.getD k actDefault) cfg = false →
      scaleLoop env cfg acts =
        scalePhaseEvents cfg (acts.take (k + 1)) ++ [Event.logErrorScale] := by
  intro acts
  induction acts with
  | nil => intro k hk _ _; simp at hk
  | cons a rest ih =>
    intro k hk hok hfail
    cases k with
    | zero =>
      have ha : env.targetScale a cfg = false := by
        simpa [List.getD_cons_zero] using hfail
      simp [scaleLoop, scalePhaseEvents, ha]
    | succ j =>
      have ha : env.targetScale a cfg = true := by
        simpa [List.getD_cons_zero] using hok 0 (Nat.succ_pos j)
      have hrest := ih j (by simpa using hk)
        (fun i hi => by
          simpa [List.getD_cons_succ] using hok (i + 1) (Nat.succ_lt_succ hi))
        (by simpa [List.getD_cons_succ] using hfail)
      simp [scaleLoop, scalePhaseEvents, ha, hrest, List.take_succ_cons]

/-- The `Scale` calls of an all-success scaling phase are the actions
paired with the target config, in order. -/
theorem scaleCalls_scalePhase (cfg : Nat) :
    ∀ acts : List Action,
      scaleCalls (scalePhaseEvents cfg acts) = acts.map fun a => (a, cfg) := by
  intro acts
  induction acts with
  | nil => rfl
  | cons a rest ih =>
    simp [scalePhaseEvents, scaleCalls, List.filterMap_cons] at ih ⊢
    exact ih

/-- Appending a trace whose errors only occur last to an error-free
trace keeps errors only last. -/
theorem errorsOnlyLast_append (l m : List Event)
    (hl : l.all (fun e => !(isErrorLog e)) = true)
    (hm : errorsOnlyLast m = true) :
    errorsOnlyLast (l ++ m) = true := by
  induction l with
  | nil => simpa using hm
  | cons e l ih =>
    simp only [List.all_cons, Bool.and_eq_true] at hl
    have h2 := ih hl.2
    cases hlm : l ++ m with
    | nil =>
      rw [List.cons_append, hlm]
      simp [errorsOnlyLast]
    | cons f rest =>
      rw [List.cons_append, hlm]
      rw [hlm] at h2
      simp [errorsOnlyLast, h2, hl.1]

/-- In a scaling loop an error log can only be the final event. -/
theorem errorsOnlyLast_scaleLoop (env : EvalEnv) (cfg : Nat) :
    ∀ acts, errorsOnlyLast (scaleLoop env cfg acts) = true := by
  intro acts
  induction acts with
  | nil => rfl
  | cons a rest ih =>
    by_cases h : env.targetScale a cfg
    · have red : scaleLoop env cfg (a :: rest) =
          [Event.logInfoScaling a, Event.scaleCall a cfg] ++
            scaleLoop env cfg rest := by
        simp [scaleLoop, h]
      rw [red]
      exact errorsOnlyLast_append _ _ (by simp [isErrorLog]) ih
    · have hb : env.targetScale a cfg = false := by simpa using h
      simp [scaleLoop, hb, errorsOnlyLast, isErrorLog]

/-- In every evaluation-cycle trace an error log can only be the final
event: after logging an error the function has returned. -/
theorem errorsOnlyLast_handlePolicy (env : EvalEnv) (p : Policy) :
    errorsOnlyLast (handlePolicy env p) = true := by
  rcases hT : env.targetDispense p.Target.Name with _ | _
  · simp [handlePolicy_red_targetFail env p hT, errorsOnlyLast, isErrorLog]
  · rcases hA : env.apmDispense p.Source with _ | _
    · simp [handlePolicy_red_apmFail env p hT hA, errorsOnlyLast, isErrorLog]
    · rcases hS : env.strategyDispense p.Strategy.Name with _ | _
      · simp [handlePolicy_red_strategyFail env p hT hA hS, errorsOnlyLast,
          isErrorLog]
      · rcases hc : env.targetCount p.Target.Config with e | c
        · cases e
          simp [handlePolicy_red_countFail env p hT hA hS hc, errorsOnlyLast,
            isErrorLog]
        · rcases hq : env.apmQuery p.Query with e | v
          · cases e
            simp [handlePolicy_red_queryFail env p c hT hA hS hc hq,
              errorsOnlyLast, isErrorLog]
          · rcases hr : env.strategyRun
                ⟨c, p.Strategy.Min, p.Strategy.Max, v, p.Strategy.Config⟩
              with e | res
            · cases e
              simp [handlePolicy_red_runFail env p c v hT hA hS hc hq hr,
                errorsOnlyLast, isErrorLog]
            · rcases hz : res.Actions with _ | ⟨a, rest⟩
              · simp [handlePolicy_red_nothing env p c v res hT hA hS hc hq hr hz,
                  errorsOnlyLast, isErrorLog]
              · have hne : res.Actions.length ≠ 0 := by simp [hz]
                rw [handlePolicy_red_scalePhase env p c v res hT hA hS hc hq hr hne]
                exact errorsOnlyLast_append _ _ (by simp [isErrorLog])
                  (errorsOnlyLast_scaleLoop env p.Target.Config res.Actions)

/-- The scaling loop contributes no dispense/`Count`/`Query`/`Run`
stage event. -/
theorem stageTag_scaleLoop (env : EvalEnv) (cfg : Nat) :
    ∀ acts, (scaleLoop env cfg acts).filterMap stageTag = [] := by
  intro acts
  induction acts with
  | nil => rfl
  | cons a rest ih =>
    by_cases h : env.targetScale a cfg <;>
      simp [scaleLoop, h, stageTag, List.filterMap_cons, ih]

/-- Splitting `scaleCalls` over trace concatenation. -/
theorem scaleCalls_append (l m : List Event) :
    scaleCalls (l ++ m) = scaleCalls l ++ scaleCalls m :=
  List.filterMap_append l m _

/-- The monitor loop processes every tick of its input: no tick outcome
makes it exit early. -/
theorem monitorPolicy_length (env : EvalEnv) (ds : Nat) :
    ∀ (ticks : List TickOutcome) (i : Nat),
      (monitorPolicy env ds i ticks).length = ticks.length := by
  intro ticks
  induction ticks with
  | nil => intro i; rfl
  | cons t rest ih => intro i; simp [monitorPolicy, ih]

/-- Claim C3 counterexample: in a fully successful concrete cycle both
the `Count` call and the APM dispense occur, yet `Count` does not
precede the APM dispense, and `Query` does not precede the strategy
dispense — the code dispenses all three plugins before any provider
call, contrary to the claimed interleaving. -/
theorem handlePolicy_order_counterexample :
    ((handlePolicy env3 p3).findIdx isCountCallEv <
        (handlePolicy env3 p3).length ∧
      (handlePolicy env3 p3).findIdx isDispenseAPMEv <
        (handlePolicy env3 p3).length ∧
      (handlePolicy env3 p3).findIdx isQueryCallEv <
        (handlePolicy env3 p3).length ∧
      (handlePolicy env3 p3).findIdx isDispenseStrategyEv <
        (handlePolicy env3 p3).length) ∧
    ¬ ((handlePolicy env3 p3).findIdx isCountCallEv <
        (handlePolicy env3 p3).findIdx isDispenseAPMEv) ∧
    ¬ ((handlePolicy env3 p3).findIdx isQueryCallEv <
        (handlePolicy env3 p3).findIdx isDispenseStrategyEv) := by decide

/-- Claim C3 (amended): every evaluation cycle performs its stages in
the order target dispense, APM dispense, strategy dispense, `Count`,
`Query`, `Run`: the stage events of any trace form a prefix of that
sequence, and exactly the full sequence when every stage succeeds. -/
theorem handlePolicy_stage_order (env : EvalEnv) (p : Policy) :
    (∃ t, (handlePolicy env p).filterMap stageTag ++ t = [0, 1, 2, 3, 4, 5]) ∧
    (∀ (c v : Int) (res : RunResult),
      env.targetDispense p.Target.Name = true →
      env.apmDispense p.Source = true →
      env.strategyDispense p.Strategy.Name = true →
      env.targetCount p.Target.Config = Except.ok c →
      env.apmQuery p.Query = Except.ok v →
      env.strategyRun ⟨c, p.Strategy.Min, p.Strategy.Max, v, p.Strategy.Config⟩ =
        Except.ok res →
      (handlePolicy env p).filterMap stageTag = [0, 1, 2, 3, 4, 5]) := by
  constructor
  · rcases hT : env.targetDispense p.Target.Name with _ | _
    · exact ⟨[1, 2, 3, 4, 5],
        by simp [handlePolicy_red_targetFail env p hT, stageTag]⟩
    · rcases hA : env.apmDispense p.Source with _ | _
      · exact ⟨[2, 3, 4, 5],
          by simp [handlePolicy_red_apmFail env p hT hA, stageTag]⟩
      · rcases hS : env.strategyDispense p.Strategy.Name with _ | _
        · exact ⟨[3, 4, 5],
            by simp [handlePolicy_red_strategyFail env p hT hA hS, stageTag]⟩
        · rcases hc : env.targetCount p.Target.Config with e | c
          · cases e
            exact ⟨[4, 5],
              by simp [handlePolicy_red_countFail env p hT hA hS hc, stageTag]⟩
          · rcases hq : env.apmQuery p.Query with e | v
            · cases e
              exact ⟨[5],
                by simp [handlePolicy_red_queryFail env p c hT hA hS hc hq,
                  stageTag]⟩
            · rcases hr : env.strategyRun
                  ⟨c, p.Strategy.Min, p.Strategy.Max, v, p.Strategy.Config⟩
                with e | res
              · cases e
                exact ⟨[],
                  by simp [handlePolicy_red_runFail env p c v hT hA hS hc hq hr,
                    stageTag]⟩
              · rcases hz : res.Actions with _ | ⟨a, rest⟩
                · exact ⟨[],
                    by simp [handlePolicy_red_nothing env p c v res hT hA hS hc
                      hq hr hz, stageTag]⟩
                · have hne : res.Actions.length ≠ 0 := by simp [hz]
                  refine ⟨[], ?_⟩
                  rw [handlePolicy_red_scalePhase env p c v res hT hA hS hc hq
                    hr hne]
                  simp [stageTag, List.filterMap_append,
                    stageTag_scaleLoop env p.Target.Config res.Actions]
  · intro c v res hT hA hS hc hq hr
    rcases hz : res.Actions with _ | ⟨a, rest⟩
    · simp [handlePolicy_red_nothing env p c v res hT hA hS hc hq hr hz,
        stageTag]
    · have hne : res.Actions.length ≠ 0 := by simp [hz]
      rw [handlePolicy_red_scalePhase env p c v res hT hA hS hc hq hr hne]
      simp [stageTag, List.filterMap_append,
        stageTag_scaleLoop env p.Target.Config res.Actions]

/-- Claim C3 witness: a fully successful concrete cycle performs the
six stages in dispense-dispense-dispense-`Count`-`Query`-`Run` order. -/
theorem handlePolicy_stage_order_witness :
    (handlePolicy env3 p3).filterMap stageTag = [0, 1, 2, 3, 4, 5] :=
  (handlePolicy_stage_order env3 p3).2 2 80 ⟨[⟨4, 0⟩]⟩ rfl rfl rfl rfl rfl rfl

/-- Claim C4: for every policy, a failure at any single pipeline stage
makes the evaluation log that stage's error and return early — the
error log is the trace's final event and nothing follows it — with no
panic and no error propagated (the function totally returns a trace),
while the owning monitor loop still processes every scheduled tick. -/
theorem handlePolicy_failure_isolated (env : EvalEnv) (ds i0 : Nat)
    (ticks : List TickOutcome) (p : Policy) (s : Stage)
    (h : failsAtStage env p s) :
    (monitorPolicy env ds i0 ticks).length = ticks.length ∧
    errorsOnlyLast (handlePolicy env p) = true ∧
    isErrorLog (errorLogOf s) = true ∧
    ∃ t, handlePolicy env p = t ++ [errorLogOf s] := by
  refine ⟨monitorPolicy_length env ds ticks i0,
    errorsOnlyLast_handlePolicy env p, ?_, ?_⟩
  · cases s <;> rfl
  · cases s with
    | dispenseTargetStage =>
      exact ⟨[Event.dispenseTarget p.Target.Name],
        handlePolicy_red_targetFail env p h⟩
    | dispenseAPMStage =>
      obtain ⟨hT, hA⟩ := h
      exact ⟨[Event.dispenseTarget p.Target.Name, Event.dispenseAPM p.Source],
        handlePolicy_red_apmFail env p hT hA⟩
    | dispenseStrategyStage =>
      obtain ⟨hT, hA, hS⟩ := h
      exact ⟨[Event.dispenseTarget p.Target.Name, Event.dispenseAPM p.Source,
        Event.dispenseStrategy p.Strategy.Name],
        handlePolicy_red_strategyFail env p hT hA hS⟩
    | countStage =>
      obtain ⟨⟨hT, hA, hS⟩, hc⟩ := h
      exact ⟨[Event.dispenseTarget p.Target.Name, Event.dispenseAPM p.Source,
        Event.dispenseStrategy p.Strategy.Name, Event.logInfoFetchingCount,
        Event.countCall p.Target.Config],
        handlePolicy_red_countFail env p hT hA hS hc⟩
    | queryStage =>
      obtain ⟨⟨hT, hA, hS⟩, ⟨c, hc⟩, hq⟩ := h
      exact ⟨[Event.dispenseTarget p.Target.Name, Event.dispenseAPM p.Source,
        Event.dispenseStrategy p.Strategy.Name, Event.logInfoFetchingCount,
        Event.countCall p.Target.Config, Event.logInfoQueryingAPM,
        Event.queryCall p.Query],
        handlePolicy_red_queryFail env p c hT hA hS hc hq⟩
    | runStage =>
      obtain ⟨⟨hT, hA, hS⟩, c, v, hc, hq, hr⟩ := h
      exact ⟨[Event.dispenseTarget p.Target.Name, Event.dispenseAPM p.Source,
        Event.dispenseStrategy p.Strategy.Name, Event.logInfoFetchingCount,
        Event.countCall p.Target.Config, Event.logInfoQueryingAPM,
        Event.queryCall p.Query, Event.logInfoCalculating,
        Event.runCall ⟨c, p.Strategy.Min, p.Strategy.Max, v, p.Strategy.Config⟩],
        handlePolicy_red_runFail env p c v hT hA hS hc hq hr⟩
    | scaleStage =>
      obtain ⟨⟨hT, hA, hS⟩, c, v, res, hc, hq, hr, k, hk, hok, hfail⟩ := h
      have hne : res.Actions.length ≠ 0 := by omega
      have h2 : handlePolicy env p =
          ([Event.dispenseTarget p.Target.Name, Event.dispenseAPM p.Source,
            Event.dispenseStrategy p.Strategy.Name, Event.logInfoFetchingCount,
            Event.countCall p.Target.Config, Event.logInfoQueryingAPM,
            Event.queryCall p.Query, Event.logInfoCalculating,
            Event.runCall
              ⟨c, p.Strategy.Min, p.Strategy.Max, v, p.Strategy.Config⟩] ++
              scalePhaseEvents p.Target.Config (res.Actions.take (k + 1))) ++
            [Event.logErrorScale] := by
        rw [handlePolicy_red_scalePhase env p c v res hT hA hS hc hq hr hne,
          scaleLoop_fail env p.Target.Config res.Actions k hk hok hfail,
          ← List.append_assoc]
      exact ⟨_, h2⟩

/-- Claim C4 witness: with a failing target dispense the cycle ends in
the target-plugin error log and the monitor still processes its tick. -/
theorem handlePolicy_failure_isolated_witness :
    (monitorPolicy envFailT 5 5 [TickOutcome.fetched p3]).length =
      [TickOutcome.fetched p3].length ∧
    errorsOnlyLast (handlePolicy envFailT p3) = true ∧
    isErrorLog (errorLogOf Stage.dispenseTargetStage) = true ∧
    ∃ t, handlePolicy envFailT p3 = t ++ [errorLogOf Stage.dispenseTargetStage] :=
  handlePolicy_failure_isolated envFailT 5 5 [TickOutcome.fetched p3] p3
    Stage.dispenseTargetStage rfl

/-- Claim C5: when the cycle reaches the scaling phase, `Scale` is
invoked once per action of the strategy result in result order; and
when a `Scale` call fails after the preceding ones succeeded, the
performed calls are exactly the actions up to and including the failing
one, the failure is logged as the cycle's final event, and no `Scale`
call happens for the remaining actions. -/
theorem handlePolicy_scale_actions (env : EvalEnv) (p : Policy)
    (c v : Int) (res : RunResult)
    (hT : env.targetDispense p.Target.Name = true)
    (hA : env.apmDispense p.Source = true)
    (hS : env.strategyDispense p.Strategy.Name = true)
    (hc : env.targetCount p.Target.Config = Except.ok c)
    (hq : env.apmQuery p.Query = Except.ok v)
    (hr : env.strategyRun
        ⟨c, p.Strategy.Min, p.Strategy.Max, v, p.Strategy.Config⟩ =
      Except.ok res) :
    ((∀ a ∈ res.Actions, env.targetScale a p.Target.Config = true) →
      scaleCalls (handlePolicy env p) =
        res.Actions.map fun a => (a, p.Target.Config)) ∧
    (∀ k, k < res.Actions.length →
      (∀ i, i < k →
        env.targetScale (res.Actions.getD i actDefault) p.Target.Config = true) →
      env.targetScale (res.Actions.getD k actDefault) p.Target.Config = false →
      scaleCalls (handlePolicy env p) =
        (res.Actions.take (k + 1)).map (fun a => (a, p.Target.Config)) ∧
      ∃ t, handlePolicy env p = t ++ [Event.logErrorScale]) := by
  constructor
  · intro hall
    rcases hz : res.Actions with _ | ⟨a, rest⟩
    · simp [handlePolicy_red_nothing env p c v res hT hA hS hc hq hr hz,
        scaleCalls, hz]
    · have hne : res.Actions.length ≠ 0 := by simp [hz]
      rw [handlePolicy_red_scalePhase env p c v res hT hA hS hc hq hr hne,
        scaleLoop_ok env p.Target.Config res.Actions hall,
        scaleCalls_append, scaleCalls_scalePhase]
      simp [scaleCalls, hz]
  · intro k hk hok hfail
    have hne : res.Actions.length ≠ 0 := by omega
    have red := handlePolicy_red_scalePhase env p c v res hT hA hS hc hq hr hne
    have sl := scaleLoop_fail env p.Target.Config res.Actions k hk hok hfail
    constructor
    · rw [red, sl, scaleCalls_append, scaleCalls_append, scaleCalls_scalePhase]
      simp [scaleCalls]
    · have h2 : handlePolicy env p =
          ([Event.dispenseTarget p.Target.Name, Event.dispenseAPM p.Source,
            Event.dispenseStrategy p.Strategy.Name, Event.logInfoFetchingCount,
            Event.countCall p.Target.Config, Event.logInfoQueryingAPM,
            Event.queryCall p.Query, Event.logInfoCalculating,
            Event.runCall
              ⟨c, p.Strategy.Min, p.Strategy.Max, v, p.Strategy.Config⟩] ++
              scalePhaseEvents p.Target.Config (res.Actions.take (k + 1))) ++
            [Event.logErrorScale] := by
        rw [red, sl, ← List.append_assoc]
      exact ⟨_, h2⟩

/-- Claim C5 witness: with a strategy result of two actions and an
always-failing `Scale`, exactly the first action is attempted and the
cycle ends in the scale error log. -/
theorem handlePolicy_scale_actions_witness :
    scaleCalls (handlePolicy envSF p3) =
      (([⟨4, 0⟩, ⟨5, 0⟩] : List Action).take (0 + 1)).map
        (fun a => (a, p3.Target.Config)) ∧
    ∃ t, handlePolicy envSF p3 = t ++ [Event.logErrorScale] :=
  (handlePolicy_scale_actions envSF p3 2 80 ⟨[⟨4, 0⟩, ⟨5, 0⟩]⟩
      rfl rfl rfl rfl rfl rfl).2 0 (by decide)
    (fun i hi => absurd hi (Nat.not_lt_zero i)) rfl

/-- Claim C6: when the strategy run succeeds with zero actions, the
cycle performs no `Scale` call, ends with the informational "nothing to
do" log line, and emits no error log at all. -/
theorem handlePolicy_no_action_noop (env : EvalEnv) (p : Policy)
    (c v : Int) (res : RunResult)
    (hT : env.targetDispense p.Target.Name = true)
    (hA : env.apmDispense p.Source = true)
    (hS : env.strategyDispense p.Strategy.Name = true)
    (hc : env.targetCount p.Target.Config = Except.ok c)
    (hq : env.apmQuery p.Query = Except.ok v)
    (hr : env.strategyRun
        ⟨c, p.Strategy.Min, p.Strategy.Max, v, p.Strategy.Config⟩ =
      Except.ok res)
    (hz : res.Actions = []) :
    scaleCalls (handlePolicy env p) = [] ∧
    (∃ t, handlePolicy env p = t ++ [Event.logInfoNothingToDo]) ∧
    isErrorLog Event.logInfoNothingToDo = false ∧
    (handlePolicy env p).all (fun e => !(isErrorLog e)) = true := by
  have red := handlePolicy_red_nothing env p c v res hT hA hS hc hq hr hz
  refine ⟨?_, ⟨?_, ?_⟩, rfl, ?_⟩
  · simp [red, scaleCalls]
  · exact [Event.dispenseTarget p.Target.Name, Event.dispenseAPM p.Source,
      Event.dispenseStrategy p.Strategy.Name, Event.logInfoFetchingCount,
      Event.countCall p.Target.Config, Event.logInfoQueryingAPM,
      Event.queryCall p.Query, Event.logInfoCalculating,
      Event.runCall ⟨c, p.Strategy.Min, p.Strategy.Max, v, p.Strategy.Config⟩]
  · rw [red]
    simp
  · simp [red, isErrorLog]

/-- Claim C6 witness: a concrete cycle whose strategy returns zero
actions scales nothing and ends in the "nothing to do" line. -/
theorem handlePolicy_no_action_noop_witness :
    scaleCalls (handlePolicy envZero p3) = [] ∧
    (∃ t, handlePolicy envZero p3 = t ++ [Event.logInfoNothingToDo]) ∧
    isErrorLog Event.logInfoNothingToDo = false ∧
    (handlePolicy envZero p3).all (fun e => !(isErrorLog e)) = true :=
  handlePolicy_no_action_noop envZero p3 2 80 ⟨[]⟩ rfl rfl rfl rfl rfl rfl rfl

/-- Claim C7: on every monitor tick whose policy fetch succeeds, the
replacement ticker's interval is the freshly fetched policy's interval
when that interval is nonzero and the process default when it is zero,
independently of the previously active interval, and the freshly
fetched policy is then evaluated; the loop itself keeps running, so the
change takes effect from the next wait without restarting the monitor. -/
theorem monitorPolicy_interval_update (env : EvalEnv) (ds : Nat) :
    ∀ (ticks : List TickOutcome) (i0 k : Nat) (p : Policy),
      ticks[k]? = some (TickOutcome.fetched p) →
      (monitorPolicy env ds i0 ticks)[k]? =
        some (if p.Interval = 0 then ds else p.Interval,
              [MEvent.evalCycle p (handlePolicy env p)]) := by
  intro ticks
  induction ticks with
  | nil => intro i0 k p h; simp at h
  | cons t rest ih =>
    intro i0 k p h
    cases k with
    | zero =>
      have ht : t = TickOutcome.fetched p := by simpa using h
      subst ht
      by_cases hI : p.Interval = 0 <;>
        simp [monitorPolicy, monitorTick, hI]
    | succ j =>
      have h2 : rest[j]? = some (TickOutcome.fetched p) := by simpa using h
      simpa [monitorPolicy] using ih (monitorTick env ds i0 t).1 j p h2

/-- Claim C7 witness: a fetch returning a policy of interval 3 while
the ticker runs at 5 installs interval 3 for the next wait. -/
theorem monitorPolicy_interval_update_witness :
    (monitorPolicy env3 5 5 [TickOutcome.fetched pIv])[0]? =
      some (if pIv.Interval = 0 then 5 else pIv.Interval,
            [MEvent.evalCycle pIv (handlePolicy env3 pIv)]) :=
  monitorPolicy_interval_update env3 5 [TickOutcome.fetched pIv] 5 0 pIv rfl

/-- Claim C8: on every monitor tick whose policy fetch fails, the tick
only logs the fetch error and performs no evaluation, the ticker
interval in force stays the previously active one, and the loop
continues through all remaining ticks. -/
theorem monitorPolicy_fetch_failure (env : EvalEnv) (ds : Nat) :
    ∀ (ticks : List TickOutcome) (i0 k : Nat),
      ticks[k]? = some TickOutcome.fetchErr →
      (monitorPolicy env ds i0 ticks)[k]? =
        some (intervalBefore env ds i0 ticks k, [MEvent.logErrorFetch]) ∧
      intervalBefore env ds i0 ticks (k + 1) = intervalBefore env ds i0 ticks k ∧
      (monitorPolicy env ds i0 ticks).length = ticks.length := by
  intro ticks
  induction ticks with
  | nil => intro i0 k h; simp at h
  | cons t rest ih =>
    intro i0 k h
    cases k with
    | zero =>
      have ht : t = TickOutcome.fetchErr := by simpa using h
      subst ht
      refine ⟨?_, ?_, ?_⟩
      · simp [monitorPolicy, monitorTick, intervalBefore]
      · simp [intervalBefore, monitorTick]
      · simp [monitorPolicy, monitorPolicy_length]
    | succ j =>
      have h2 : rest[j]? = some TickOutcome.fetchErr := by simpa using h
      obtain ⟨c1, c2, c3⟩ := ih (monitorTick env ds i0 t).1 j h2
      refine ⟨?_, ?_, ?_⟩
      · simpa [monitorPolicy, intervalBefore] using c1
      · simpa [intervalBefore] using c2
      · simp [monitorPolicy, c3]

/-- Claim C8 witness: a failing fetch on a ticker running at 7 keeps
interval 7 and only logs the error. -/
theorem monitorPolicy_fetch_failure_witness :
    (monitorPolicy env3 5 7 [TickOutcome.fetchErr])[0]? =
      some (intervalBefore env3 5 7 [TickOutcome.fetchErr] 0,
            [MEvent.logErrorFetch]) ∧
    intervalBefore env3 5 7 [TickOutcome.fetchErr] 1 =
      intervalBefore env3 5 7 [TickOutcome.fetchErr] 0 ∧
    (monitorPolicy env3 5 7 [TickOutcome.fetchErr]).length =
      [TickOutcome.fetchErr].length :=
  monitorPolicy_fetch_failure env3 5 [TickOutcome.fetchErr] 7 0 rfl

/-- A register event of the matching kind contributes its pair. -/
theorem registersOf_cons_register (k : Kind) (n d : Nat)
    (evs : List LoadEvent) :
    registersOf k (LoadEvent.registerPlugin k n d :: evs) =
      (n, d) :: registersOf k evs := by
  simp [registersOf, List.filterMap_cons]

/-- A dispense event contributes no registration. -/
theorem registersOf_cons_dispense (k k2 : Kind) (n : Nat)
    (evs : List LoadEvent) :
    registersOf k (LoadEvent.dispensePlugin k2 n :: evs) =
      registersOf k evs := by
  simp [registersOf, List.filterMap_cons]

/-- A SetConfig event contributes no registration. -/
theorem registersOf_cons_setConfig (k k2 : Kind) (n : Nat)
    (cfg : List (Nat × Nat)) (evs : List LoadEvent) :
    registersOf k (LoadEvent.setConfigPlugin k2 n cfg :: evs) =
      registersOf k evs := by
  simp [registersOf, List.filterMap_cons]

/-- An all-successful load pass registers exactly the plugins of its
list, in list order. -/
theorem loadList_allOk_registers (env : LoadEnv) (k : Kind)
    (hreg : ∀ k2 n, env.registerOk k2 n = true)
    (hdis : ∀ k2 n, env.dispenseOk k2 n = true)
    (hset : ∀ k2 n, env.setConfigOk k2 n = true) :
    ∀ l : List PluginCfg,
      registersOf k (loadList env k l).1 =
        l.map fun c => (c.Name, c.Driver) := by
  intro l
  induction l with
  | nil => rfl
  | cons c rest ih =>
    simp [loadList, hreg, hdis, hset, registersOf_cons_register,
      registersOf_cons_dispense, registersOf_cons_setConfig, ih]

/-- Claim C2 counterexample: with one configured plugin per kind, the
strategy load pass registers no provider named `local-nomad` at all,
and the APM pass registers the built-in `local-nomad` provider after
the configured provider rather than before it. -/
theorem loadPlugins_builtin_counterexample :
    (loadStrategyPlugins envAllLoad cfgW).1.all
        (fun e =>
          match e with
          | LoadEvent.registerPlugin _ n _ => !(n == localNomad)
          | _ => true) = true ∧
    registersOf Kind.apm (loadAPMPlugins envAllLoad cfgW).1 =
      [(10, 11), (localNomad, nomadAPMDriver)] := by decide

/-- Claim C2 (amended): during a fully successful load pass the core
registers a built-in provider named `local-nomad` for the metric-source
kind (driver `nomad-apm`) and for the target kind (driver `nomad`),
appended after the statically configured providers of that kind and
hence registered and configured after them, while the strategy kind
registers only the statically configured providers. -/
theorem loadPlugins_builtin_registration (env : LoadEnv) (cfg : Config)
    (hreg : ∀ k n, env.registerOk k n = true)
    (hdis : ∀ k n, env.dispenseOk k n = true)
    (hset : ∀ k n, env.setConfigOk k n = true) :
    registersOf Kind.apm (loadAPMPlugins env cfg).1 =
      (cfg.APMs ++ [localNomadAPM cfg.Nomad]).map
        (fun c => (c.Name, c.Driver)) ∧
    registersOf Kind.target (loadTargetPlugins env cfg).1 =
      (cfg.Targets ++ [localNomadTarget cfg.Nomad]).map
        (fun c => (c.Name, c.Driver)) ∧
    registersOf Kind.strategy (loadStrategyPlugins env cfg).1 =
      cfg.Strategies.map (fun c => (c.Name, c.Driver)) ∧
    (localNomadAPM cfg.Nomad).Name = localNomad ∧
    (localNomadAPM cfg.Nomad).Driver = nomadAPMDriver ∧
    (localNomadTarget cfg.Nomad).Name = localNomad ∧
    (localNomadTarget cfg.Nomad).Driver = nomadDriver :=
  ⟨loadList_allOk_registers env Kind.apm hreg hdis hset _,
   loadList_allOk_registers env Kind.target hreg hdis hset _,
   loadList_allOk_registers env Kind.strategy hreg hdis hset _,
   rfl, rfl, rfl, rfl⟩

/-- Claim C2 witness: the amended registration shape at a concrete
configuration with one configured plugin per kind. -/
theorem loadPlugins_builtin_registration_witness :
    registersOf Kind.apm (loadAPMPlugins envAllLoad cfgW).1 =
      (cfgW.APMs ++ [localNomadAPM cfgW.Nomad]).map
        (fun c => (c.Name, c.Driver)) ∧
    registersOf Kind.target (loadTargetPlugins envAllLoad cfgW).1 =
      (cfgW.Targets ++ [localNomadTarget cfgW.Nomad]).map
        (fun c => (c.Name, c.Driver)) ∧
    registersOf Kind.strategy (loadStrategyPlugins envAllLoad cfgW).1 =
      cfgW.Strategies.map (fun c => (c.Name, c.Driver)) ∧
    (localNomadAPM cfgW.Nomad).Name = localNomad ∧
    (localNomadAPM cfgW.Nomad).Driver = nomadAPMDriver ∧
    (localNomadTarget cfgW.Nomad).Name = localNomad ∧
    (localNomadTarget cfgW.Nomad).Driver = nomadDriver :=
  loadPlugins_builtin_registration envAllLoad cfgW (fun _ _ => rfl)
    (fun _ _ => rfl) (fun _ _ => rfl)

/-- Claim C1 evidence: the reconciliation loop invokes the cancellation
handle of a removed policy but never deletes its ID from the
`policyMonitors` map, so when the policy reappears in a later update
the existence check skips it and no fresh monitor is started: after
delivering the sets {pA}, {}, {pA} the map still holds the ID while no
live monitor exists. -/
theorem supervisor_readd_never_restarts :
    handlePolicies ⟨[], []⟩ [pA] = ⟨[1], [1]⟩ ∧
    handlePolicies ⟨[1], [1]⟩ [] = ⟨[1], []⟩ ∧
    handlePolicies ⟨[1], []⟩ [pA] = ⟨[1], []⟩ ∧
    (supervise ⟨[], []⟩ [FeedItem.policies [pA], FeedItem.policies [],
        FeedItem.policies [pA]]).live = [] ∧
    (supervise ⟨[], []⟩ [FeedItem.policies [pA], FeedItem.policies [],
        FeedItem.policies [pA]]).monitors = [pA.ID] := by decide

/-- Claim C9: `Agent.Run` returns an error exactly for the two startup
failures — client construction and the one-time plugin load pass — and
for every feed, feed errors included, it otherwise runs the supervisor
loop to the end of the feed and returns no error. -/
theorem agentRun_error_policy (c : Bool) (lenv : LoadEnv) (cfg : Config)
    (feed : List FeedItem) :
    ((AgentRun c lenv cfg feed).1 = none ↔
      c = true ∧ (loadPlugins lenv cfg).2 = true) ∧
    ((AgentRun c lenv cfg feed).1 = some RunError.clientFailed ↔ c = false) ∧
    ((AgentRun c lenv cfg feed).1 = some RunError.pluginLoadFailed ↔
      c = true ∧ (loadPlugins lenv cfg).2 = false) := by
  cases c <;> rcases h : (loadPlugins lenv cfg).2 <;> simp [AgentRun, h]

/-- Claim C9 witness: a healthy client and an all-successful load pass
give no returned error even when the feed delivers a feed error. -/
theorem agentRun_error_policy_witness :
    ((AgentRun true envAllLoad cfgW [FeedItem.feedErr]).1 = none ↔
      true = true ∧ (loadPlugins envAllLoad cfgW).2 = true) ∧
    ((AgentRun true envAllLoad cfgW [FeedItem.feedErr]).1 =
        some RunError.clientFailed ↔ true = false) ∧
    ((AgentRun true envAllLoad cfgW [FeedItem.feedErr]).1 =
        some RunError.pluginLoadFailed ↔
      true = true ∧ (loadPlugins envAllLoad cfgW).2 = false) :=
  agentRun_error_policy true envAllLoad cfgW [FeedItem.feedErr]

/-- Claim C10 witness: the three properties evaluated at 7 and 3. -/
theorem blocking_index_spec_witness :
    FindMaxFound 7 3 = max 7 3 ∧
    (IndexHasChange 7 3 = true ↔ 7 > 3) ∧
    (IndexHasChange 7 3 = true ↔ FindMaxFound 7 3 ≠ 3) :=
  blocking_index_spec 7 3

end Autoscaler
